import Mathlib

/-
Verification of the dbgen data generators (scripts/gerar_compras.py,
scripts/gerar_clientes.py, app.py), shallowly embedded in Lean.

Embedding conventions:
- Python's `random.Random` instance is modelled as an explicit deterministic
  state machine (`RNGOps σ`): every draw is a pure function of the current
  generator state, returning the drawn value together with the next state,
  exactly as the single generator object is threaded through the Python code.
  `RNGLawful` records the documented range guarantees of
  `randint`/`uniform`/`choice`.
- `datetime` values are modelled as rata-die day numbers (`Int`); subtraction
  of datetimes (`.days`) is integer subtraction, and comparison is integer
  comparison.  The final `strftime('%Y-%m-%d')` rendering of the generated
  dates is an injective, monotone presentation of the day number and is
  omitted from the embedding (rows carry the day number itself).
- Python floats are modelled as rationals; `round(x, 2)` is modelled as
  round-half-to-even at two decimal places (`round2`).
- Fallible Python code (raised `ValueError` / `HTTPException` / `IndexError` /
  `ZeroDivisionError`) is modelled with `Except String`.
-/

/-- State-machine model of a `random.Random` instance: each method consumes
the generator state and returns the drawn value plus the successor state.
`choice` is modelled as drawing an index for a sequence of the given length. -/
structure RNGOps (σ : Type) where
  randint : Int → Int → σ → Int × σ
  uniform : ℚ → ℚ → σ → ℚ × σ
  choice : Nat → σ → Nat × σ

/-- The documented range contracts of the `random.Random` methods:
`randint a b` is inclusive on both ends, `uniform a b` stays in `[a, b]`,
`choice` on a sequence of length `n > 0` draws a valid index. -/
structure RNGLawful {σ : Type} (R : RNGOps σ) : Prop where
  randint_mem : ∀ a b s, a ≤ b → a ≤ (R.randint a b s).1 ∧ (R.randint a b s).1 ≤ b
  uniform_mem : ∀ a b s, a ≤ b → a ≤ (R.uniform a b s).1 ∧ (R.uniform a b s).1 ≤ b
  choice_lt : ∀ n s, 0 < n → (R.choice n s).1 < n

/-- Round-half-to-even of a rational to an integer (the rounding mode of
Python's builtin `round`). -/
def roundHalfEven (q : ℚ) : ℤ :=
  if q - (⌊q⌋ : ℚ) < 1/2 then ⌊q⌋
  else if 1/2 < q - (⌊q⌋ : ℚ) then ⌊q⌋ + 1
  else if ⌊q⌋ % 2 = 0 then ⌊q⌋ else ⌊q⌋ + 1

/-- Python's `round(x, 2)`: round-half-to-even at two decimal places. -/
def round2 (q : ℚ) : ℚ := ((roundHalfEven (q * 100) : ℤ) : ℚ) / 100

/-- A purchase row `(codigo_cliente, data, valor, codigo_filial)` as built by
`montar_compras` (the date is carried as a rata-die day number). -/
structure Compra where
  cod : String
  data : Int
  valor : ℚ
  filial : String
deriving DecidableEq

/-- `escolher(iterable, rng)` = `rng.choice(list(iterable))` from
scripts/gerar_compras.py; `choice` on an empty sequence raises `IndexError`. -/
def escolher {σ : Type} (R : RNGOps σ) (l : List String) (s : σ) :
    Except String (String × σ) :=
  if l.length = 0 then .error "IndexError: Cannot choose from an empty sequence"
  else
    let (i, s1) := R.choice l.length s
    .ok (l.getD (i % l.length) "", s1)

/-- `datas[i % len(datas)]`: Python raises `ZeroDivisionError` when the pool is
empty (`i % 0`), otherwise the cyclic access is always in bounds. -/
def dataAt (datas : List Int) (i : Nat) : Except String Int :=
  if datas.length = 0 then .error "ZeroDivisionError: integer modulo by zero"
  else .ok (datas.getD (i % datas.length) 0)

/-- The `range(n)` loop of `gerar_datas` (scripts/gerar_compras.py lines
66-70): each iteration draws `offset = rng.randint(0, delta)` when
`delta > 0` (else 0) and emits `inicio + offset`. -/
def gerarDatasLoop {σ : Type} (R : RNGOps σ) (inicio delta : Int) :
    Nat → σ → List Int × σ
  | 0, s => ([], s)
  | n + 1, s =>
    let (offset, s1) := if delta > 0 then R.randint 0 delta s else (0, s)
    let (resto, s2) := gerarDatasLoop R inicio delta n s1
    ((inicio + offset) :: resto, s2)

/-- `gerar_datas` (scripts/gerar_compras.py lines 59-71): raises when
`fim < inicio`, clamps `delta` at 0, then generates `n` dates in
`[inicio, fim]`.  Dates are rata-die day numbers. -/
def gerar_datas {σ : Type} (R : RNGOps σ) (n : Int) (inicio fim : Int) (s : σ) :
    Except String (List Int × σ) :=
  if fim < inicio then .error "Data fim é anterior à data início."
  else
    let delta := fim - inicio
    let delta := if delta < 0 then 0 else delta
    .ok (gerarDatasLoop R inicio delta n.toNat s)

/-- Python's zero-padding integer format `{i:0wd}`. -/
def pyFormat0 (w : Nat) (n : Nat) : String :=
  let s := toString n
  if s.length < w then String.mk (List.replicate (w - s.length) '0') ++ s else s

/-- `gerar_filiais` (scripts/gerar_compras.py lines 74-77):
`qtd = max(1, int(qtd))`, then `['F%03d' % i for i in range(1, qtd + 1)]`. -/
def gerar_filiais (qtd : Int) : List String :=
  let qtd := max 1 qtd
  (List.range' 1 qtd.toNat).map (fun i => "F" ++ pyFormat0 3 i)

/-- Coverage phase of `montar_compras` (lines 105-110): one row per customer
code, in input order, with the date taken at pool position `idx mod len`. -/
def preSemeia {σ : Type} (R : RNGOps σ) (vmin vmax : ℚ) (datas : List Int)
    (filiais : List String) :
    List String → Nat → σ → Except String (List Compra × σ)
  | [], _, s => .ok ([], s)
  | cod :: resto, idx, s =>
    match dataAt datas idx with
    | .error e => .error e
    | .ok data =>
      let (valor, s1) := R.uniform vmin vmax s
      match escolher R filiais s1 with
      | .error e => .error e
      | .ok (filial, s2) =>
        match preSemeia R vmin vmax datas filiais resto (idx + 1) s2 with
        | .error e => .error e
        | .ok (rows, s3) => .ok (⟨cod, data, round2 valor, filial⟩ :: rows, s3)

/-- Fill phase of `montar_compras` (lines 112-119): `faltantes` further rows;
at loop counter `i` the Python code reads `datas[(len(rows) + i) % len(datas)]`
where `rows` has already grown to `rowsLen` entries, so the pool position is
`(rowsLen + i) mod len` with `rowsLen` increasing by one per iteration. -/
def distribui {σ : Type} (R : RNGOps σ) (codigos : List String) (vmin vmax : ℚ)
    (datas : List Int) (filiais : List String) :
    Nat → Nat → Nat → σ → Except String (List Compra × σ)
  | 0, _, _, s => .ok ([], s)
  | faltantes + 1, rowsLen, i, s =>
    match escolher R codigos s with
    | .error e => .error e
    | .ok (cod, s1) =>
      match dataAt datas (rowsLen + i) with
      | .error e => .error e
      | .ok data =>
        let (valor, s2) := R.uniform vmin vmax s1
        match escolher R filiais s2 with
        | .error e => .error e
        | .ok (filial, s3) =>
          match distribui R codigos vmin vmax datas filiais faltantes (rowsLen + 1) (i + 1) s3 with
          | .error e => .error e
          | .ok (rows, s4) => .ok (⟨cod, data, round2 valor, filial⟩ :: rows, s4)

/-- `montar_compras` (scripts/gerar_compras.py lines 84-121): rejects
`valor_max < valor_min`, raises the row target to the customer count, then
runs the coverage phase followed by the fill phase. -/
def montar_compras {σ : Type} (R : RNGOps σ) (codigos_clientes : List String)
    (total_linhas : Int) (valor_min valor_max : ℚ) (datas : List Int)
    (filiais : List String) (s : σ) : Except String (List Compra × σ) :=
  if valor_max < valor_min then .error "valor_max deve ser >= valor_min"
  else
    let total := max total_linhas (codigos_clientes.length : Int)
    match preSemeia R valor_min valor_max datas filiais codigos_clientes 0 s with
    | .error e => .error e
    | .ok (rows, s1) =>
      let faltantes := (total - (rows.length : Int)).toNat
      match distribui R codigos_clientes valor_min valor_max datas filiais faltantes rows.length 0 s1 with
      | .error e => .error e
      | .ok (rows2, s2) => .ok (rows ++ rows2, s2)

/-- The purchase allocation pipeline of `_in_memory_purchases` (app.py lines
183-195): a generator freshly initialised from the seed is threaded first
through `gerar_datas` (pool size `max(rows_total, len(codes))`) and then
through `montar_compras`. -/
def alocar {σ : Type} (R : RNGOps σ) (seedInit : Int → σ) (seed : Int)
    (codigos : List String) (rows_total : Int) (vmin vmax : ℚ)
    (inicio fim : Int) (filiais_qtd : Int) : Except String (List Compra) :=
  let s0 := seedInit seed
  match gerar_datas R (max rows_total (codigos.length : Int)) inicio fim s0 with
  | .error e => .error e
  | .ok ds =>
    let filiais := gerar_filiais filiais_qtd
    match montar_compras R codigos rows_total vmin vmax ds.1 filiais ds.2 with
    | .error e => .error e
    | .ok rs => .ok rs.1

/-- A concrete lawful generator used to evaluate the model on explicit inputs:
`randint`/`uniform` return the lower bound, `choice` returns index 0, and the
state counts the number of draws. -/
def cRNG : RNGOps Nat where
  randint := fun a _ s => (a, s + 1)
  uniform := fun a _ s => (a, s + 1)
  choice := fun _ s => (0, s + 1)

theorem cRNG_lawful : RNGLawful cRNG := by
  constructor
  · intro a b s h; exact ⟨le_refl a, h⟩
  · intro a b s h; exact ⟨le_refl a, h⟩
  · intro n s h; exact h

example : montar_compras cRNG ["a"] 3 0 0 [0, 1, 2] ["f"] 0 =
    .ok ([⟨"a", 0, 0, "f"⟩, ⟨"a", 1, 0, "f"⟩, ⟨"a", 0, 0, "f"⟩], 8) := by
  simp [montar_compras, preSemeia, distribui, dataAt, escolher, cRNG]
  norm_num [round2, roundHalfEven]

/-- Round-half-to-even is monotone. -/
theorem roundHalfEven_mono {x y : ℚ} (h : x ≤ y) :
    roundHalfEven x ≤ roundHalfEven y := by
  have hf : ⌊x⌋ ≤ ⌊y⌋ := Int.floor_le_floor h
  rcases eq_or_lt_of_le hf with heq | hlt
  · have hr : x - (⌊x⌋ : ℚ) ≤ y - (⌊y⌋ : ℚ) := by
      rw [← heq]; linarith
    unfold roundHalfEven
    rw [← heq]
    split_ifs <;> first | omega | linarith
  · have h1 : roundHalfEven x ≤ ⌊x⌋ + 1 := by
      unfold roundHalfEven; split_ifs <;> omega
    have h2 : ⌊y⌋ ≤ roundHalfEven y := by
      unfold roundHalfEven; split_ifs <;> omega
    omega

/-- `round2` is monotone. -/
theorem round2_mono {x y : ℚ} (h : x ≤ y) : round2 x ≤ round2 y := by
  unfold round2
  have : roundHalfEven (x * 100) ≤ roundHalfEven (y * 100) :=
    roundHalfEven_mono (by linarith)
  have hc : ((roundHalfEven (x * 100) : ℤ) : ℚ) ≤ ((roundHalfEven (y * 100) : ℤ) : ℚ) := by
    exact_mod_cast this
  linarith

theorem getD_mem_of_lt {α : Type} {l : List α} {n : Nat} (h : n < l.length) (d : α) :
    l.getD n d ∈ l := by
  rw [List.getD_eq_getElem?_getD, List.getElem?_eq_getElem h]
  simp [List.getElem_mem]

/-- Invariants of the coverage phase: it always succeeds on non-empty pools,
emits exactly the customer codes in input order, and reads the date pool at
positions `idx`, `idx+1`, ... modulo the pool size. -/
theorem preSemeia_ok {σ : Type} (R : RNGOps σ) (vmin vmax : ℚ) (datas : List Int)
    (filiais : List String) (hd : datas ≠ []) (hf : filiais ≠ [])
    (codigos : List String) :
    ∀ (idx : Nat) (s : σ),
      ∃ rows s',
        preSemeia R vmin vmax datas filiais codigos idx s = .ok (rows, s') ∧
        rows.map Compra.cod = codigos ∧
        (∀ k (h : k < rows.length),
          (rows.get ⟨k, h⟩).data = datas.getD ((idx + k) % datas.length) 0) ∧
        (∀ r ∈ rows, r.data ∈ datas ∧ r.filial ∈ filiais ∧
          ∃ u, r.valor = round2 u ∧
            (RNGLawful R → vmin ≤ vmax → vmin ≤ u ∧ u ≤ vmax)) := by
  have hdl : datas.length ≠ 0 := (List.length_pos.mpr hd).ne'
  have hfl : filiais.length ≠ 0 := (List.length_pos.mpr hf).ne'
  induction codigos with
  | nil =>
    intro idx s
    exact ⟨[], s, rfl, rfl, by simp, by simp⟩
  | cons cod resto ih =>
    intro idx s
    obtain ⟨rows, s', hrun, hmap, hdata, hmem⟩ :=
      ih (idx + 1) (R.choice filiais.length (R.uniform vmin vmax s).2).2
    refine ⟨⟨cod, datas.getD (idx % datas.length) 0, round2 (R.uniform vmin vmax s).1,
        filiais.getD ((R.choice filiais.length (R.uniform vmin vmax s).2).1 % filiais.length) ""⟩
        :: rows, s', ?_, ?_, ?_, ?_⟩
    · simp [preSemeia, dataAt, escolher, hdl, hfl, hrun]
    · simpa using hmap
    · intro k h
      match k with
      | 0 => simp
      | Nat.succ k =>
        have hk : k < rows.length := by simpa using h
        have := hdata k hk
        have harith : idx + 1 + k = idx + (k + 1) := by omega
        simp only [List.get] at this ⊢
        rw [← harith]
        exact this
    · intro r hr
      rcases List.mem_cons.mp hr with hhead | htail
      · subst hhead
        refine ⟨getD_mem_of_lt (Nat.mod_lt _ (Nat.pos_of_ne_zero hdl)) 0,
                getD_mem_of_lt (Nat.mod_lt _ (Nat.pos_of_ne_zero hfl)) "",
                (R.uniform vmin vmax s).1, rfl, ?_⟩
        intro hL hvv
        exact hL.uniform_mem vmin vmax s hvv
      · exact hmem r htail

/-- Invariants of the fill phase: with non-empty customer, date, and branch
pools it always succeeds, emits exactly `faltantes` rows, each drawing its
customer code from the input pool, and reads the date pool at positions
`(rowsLen + k) + (i + k)` modulo the pool size (the Python expression
`(len(rows) + i) % len(datas)` with both `len(rows)` and `i` advancing). -/
theorem distribui_ok {σ : Type} (R : RNGOps σ) (codigos : List String)
    (vmin vmax : ℚ) (datas : List Int) (filiais : List String)
    (hc : codigos ≠ []) (hd : datas ≠ []) (hf : filiais ≠ []) :
    ∀ (faltantes rowsLen i : Nat) (s : σ),
      ∃ rows s',
        distribui R codigos vmin vmax datas filiais faltantes rowsLen i s = .ok (rows, s') ∧
        rows.length = faltantes ∧
        (∀ k (h : k < rows.length),
          (rows.get ⟨k, h⟩).data = datas.getD ((rowsLen + k + (i + k)) % datas.length) 0) ∧
        (∀ r ∈ rows, r.cod ∈ codigos ∧ r.data ∈ datas ∧ r.filial ∈ filiais ∧
          ∃ u, r.valor = round2 u ∧
            (RNGLawful R → vmin ≤ vmax → vmin ≤ u ∧ u ≤ vmax)) := by
  have hcl : codigos.length ≠ 0 := (List.length_pos.mpr hc).ne'
  have hdl : datas.length ≠ 0 := (List.length_pos.mpr hd).ne'
  have hfl : filiais.length ≠ 0 := (List.length_pos.mpr hf).ne'
  intro faltantes
  induction faltantes with
  | zero =>
    intro rowsLen i s
    exact ⟨[], s, rfl, rfl, by simp, by simp⟩
  | succ faltantes ih =>
    intro rowsLen i s
    obtain ⟨rows, s', hrun, hlen, hdata, hmem⟩ :=
      ih (rowsLen + 1) (i + 1)
        (R.choice filiais.length
          (R.uniform vmin vmax (R.choice codigos.length s).2).2).2
    refine ⟨⟨codigos.getD ((R.choice codigos.length s).1 % codigos.length) "",
        datas.getD ((rowsLen + i) % datas.length) 0,
        round2 (R.uniform vmin vmax (R.choice codigos.length s).2).1,
        filiais.getD
          ((R.choice filiais.length
            (R.uniform vmin vmax (R.choice codigos.length s).2).2).1 % filiais.length) ""⟩
        :: rows, s', ?_, ?_, ?_, ?_⟩
    · simp [distribui, dataAt, escolher, hcl, hdl, hfl, hrun]
    · simpa using hlen
    · intro k h
      match k with
      | 0 => simp
      | Nat.succ k =>
        have hk : k < rows.length := by simpa using h
        have := hdata k hk
        have harith : rowsLen + 1 + k + (i + 1 + k) = rowsLen + (k + 1) + (i + (k + 1)) := by
          omega
        simp only [List.get] at this ⊢
        rw [← harith]
        exact this
    · intro r hr
      rcases List.mem_cons.mp hr with hhead | htail
      · subst hhead
        refine ⟨getD_mem_of_lt (Nat.mod_lt _ (Nat.pos_of_ne_zero hcl)) "",
                getD_mem_of_lt (Nat.mod_lt _ (Nat.pos_of_ne_zero hdl)) 0,
                getD_mem_of_lt (Nat.mod_lt _ (Nat.pos_of_ne_zero hfl)) "",
                (R.uniform vmin vmax (R.choice codigos.length s).2).1, rfl, ?_⟩
        intro hL hvv
        exact hL.uniform_mem vmin vmax _ hvv
      · exact hmem r htail

/-- Master invariant of `montar_compras`: on a non-empty customer list with
non-empty date and branch pools and a non-inverted value range it succeeds,
its output is the coverage rows followed by the fill rows, and all the
structural per-row facts hold. -/
theorem montar_compras_ok {σ : Type} (R : RNGOps σ) (codigos : List String)
    (total : Int) (vmin vmax : ℚ) (datas : List Int) (filiais : List String) (s : σ)
    (hc : codigos ≠ []) (hd : datas ≠ []) (hf : filiais ≠ []) (hv : vmin ≤ vmax) :
    ∃ cov fill s',
      montar_compras R codigos total vmin vmax datas filiais s = .ok (cov ++ fill, s') ∧
      cov.map Compra.cod = codigos ∧
      (cov ++ fill).length = (max total (codigos.length : Int)).toNat ∧
      (∀ k (h : k < cov.length),
        (cov.get ⟨k, h⟩).data = datas.getD (k % datas.length) 0) ∧
      (∀ k (h : k < fill.length),
        (fill.get ⟨k, h⟩).data = datas.getD ((codigos.length + 2 * k) % datas.length) 0) ∧
      (∀ r ∈ cov ++ fill, r.cod ∈ codigos ∧ r.data ∈ datas ∧ r.filial ∈ filiais ∧
        ∃ u, r.valor = round2 u ∧ (RNGLawful R → vmin ≤ u ∧ u ≤ vmax)) := by
  obtain ⟨cov, s1, hrunc, hmap, hdatac, hmemc⟩ :=
    preSemeia_ok R vmin vmax datas filiais hd hf codigos 0 s
  have hcovlen : cov.length = codigos.length := by
    have := congrArg List.length hmap
    simpa using this
  obtain ⟨fill, s2, hrunf, hlenf, hdataf, hmemf⟩ :=
    distribui_ok R codigos vmin vmax datas filiais hc hd hf
      ((max total (codigos.length : Int)) - (cov.length : Int)).toNat cov.length 0 s1
  refine ⟨cov, fill, s2, ?_, hmap, ?_, ?_, ?_, ?_⟩
  · simp only [montar_compras, not_lt.mpr hv, if_false, hrunc]
    rw [hrunf]
  · have h1 : (codigos.length : Int) ≤ max total (codigos.length : Int) := le_max_right _ _
    simp only [List.length_append, hlenf, hcovlen]
    omega
  · intro k h
    have := hdatac k h
    simpa using this
  · intro k h
    have := hdataf k h
    have harith : cov.length + k + (0 + k) = codigos.length + 2 * k := by
      rw [hcovlen]; omega
    rw [harith] at this
    exact this
  · intro r hr
    rcases List.mem_append.mp hr with hcov | hfill
    · obtain ⟨hdta, hfil, u, hval, hbound⟩ := hmemc r hcov
      have hcod : r.cod ∈ codigos := by
        rw [← hmap]
        exact List.mem_map.mpr ⟨r, hcov, rfl⟩
      exact ⟨hcod, hdta, hfil, u, hval, fun hL => hbound hL hv⟩
    · obtain ⟨hcod, hdta, hfil, u, hval, hbound⟩ := hmemf r hfill
      exact ⟨hcod, hdta, hfil, u, hval, fun hL => hbound hL hv⟩

/-- C1: for every non-empty customer-code list and valid parameters, the set
of customer codes appearing in the rows returned by `montar_compras` is
exactly the input customer-code set: every input code appears in at least one
output row, and no output row carries a code outside the input set. -/
theorem montar_compras_codigos_exatos {σ : Type} (R : RNGOps σ)
    (codigos : List String) (total : Int) (vmin vmax : ℚ) (datas : List Int)
    (filiais : List String) (s : σ)
    (hc : codigos ≠ []) (hd : datas ≠ []) (hf : filiais ≠ []) (hv : vmin ≤ vmax) :
    ∃ rows s',
      montar_compras R codigos total vmin vmax datas filiais s = .ok (rows, s') ∧
      (∀ c ∈ codigos, ∃ r ∈ rows, r.cod = c) ∧
      (∀ r ∈ rows, r.cod ∈ codigos) := by
  obtain ⟨cov, fill, s', hrun, hmap, _, _, _, hmem⟩ :=
    montar_compras_ok R codigos total vmin vmax datas filiais s hc hd hf hv
  refine ⟨cov ++ fill, s', hrun, ?_, fun r hr => (hmem r hr).1⟩
  intro c hcmem
  rw [← hmap] at hcmem
  obtain ⟨r, hr, hrc⟩ := List.mem_map.mp hcmem
  exact ⟨r, List.mem_append_left _ hr, hrc⟩

theorem montar_compras_codigos_exatos_witness :
    ∃ rows s',
      montar_compras cRNG ["C00001", "C00002"] 3 0 0 [0] ["f"] 0 = .ok (rows, s') ∧
      (∀ c ∈ ["C00001", "C00002"], ∃ r ∈ rows, r.cod = c) ∧
      (∀ r ∈ rows, r.cod ∈ ["C00001", "C00002"]) :=
  montar_compras_codigos_exatos cRNG ["C00001", "C00002"] 3 0 0 [0] ["f"] 0
    (by decide) (by decide) (by decide) (le_refl 0)

/-- C2: for every non-empty customer-code list (with non-empty date/branch
pools and a non-inverted value range), `montar_compras` succeeds — a
`target_rows` smaller than the customer count is silently raised, never
rejected — and the number of returned rows is exactly
`max(target_rows, |customer_codes|)`. -/
theorem montar_compras_total_linhas {σ : Type} (R : RNGOps σ)
    (codigos : List String) (total : Int) (vmin vmax : ℚ) (datas : List Int)
    (filiais : List String) (s : σ)
    (hc : codigos ≠ []) (hd : datas ≠ []) (hf : filiais ≠ []) (hv : vmin ≤ vmax) :
    ∃ rows s',
      montar_compras R codigos total vmin vmax datas filiais s = .ok (rows, s') ∧
      rows.length = (max total (codigos.length : Int)).toNat := by
  obtain ⟨cov, fill, s', hrun, _, hlen, _, _, _⟩ :=
    montar_compras_ok R codigos total vmin vmax datas filiais s hc hd hf hv
  exact ⟨cov ++ fill, s', hrun, hlen⟩

theorem montar_compras_total_linhas_witness :
    ∃ rows s',
      montar_compras cRNG ["C00001", "C00002"] 1 0 0 [0] ["f"] 0 = .ok (rows, s') ∧
      rows.length = (max 1 ((["C00001", "C00002"] : List String).length : Int)).toNat :=
  montar_compras_total_linhas cRNG ["C00001", "C00002"] 1 0 0 [0] ["f"] 0
    (by decide) (by decide) (by decide) (le_refl 0)

/-- C9 (implicit): for every non-empty customer-code list, every non-empty
date pool of ANY length, every non-empty branch list, and every value range
with `value_max ≥ value_min`, `montar_compras` returns normally — both phases
index the date pool cyclically via mod, so no access is out of bounds. -/
theorem montar_compras_sem_erro {σ : Type} (R : RNGOps σ)
    (codigos : List String) (total : Int) (vmin vmax : ℚ) (datas : List Int)
    (filiais : List String) (s : σ)
    (hc : codigos ≠ []) (hd : datas ≠ []) (hf : filiais ≠ []) (hv : vmin ≤ vmax) :
    ∃ rows s',
      montar_compras R codigos total vmin vmax datas filiais s = .ok (rows, s') := by
  obtain ⟨cov, fill, s', hrun, _, _, _, _, _⟩ :=
    montar_compras_ok R codigos total vmin vmax datas filiais s hc hd hf hv
  exact ⟨cov ++ fill, s', hrun⟩

theorem montar_compras_sem_erro_witness :
    ∃ rows s',
      montar_compras cRNG ["C00001"] 5 0 1 [7] ["f"] 0 = .ok (rows, s') :=
  montar_compras_sem_erro cRNG ["C00001"] 5 0 1 [7] ["f"] 0
    (by decide) (by decide) (by decide) (by norm_num)

/-- C4 counterexample: the claim states that every fill-phase row uses the
date at DatePool position `current_row_count mod pool_size`.  With one
customer, three target rows and pool `[0, 1, 2]`, the third row
(`current_row_count = 2`) would have to carry the date at position
`2 mod 3 = 2`, i.e. the value `2`; the code's fill loop instead evaluates
`datas[(len(rows) + i) % len(datas)]` with `len(rows)` already grown to
`2` and `i = 1`, reading position `0` and producing the value `0`. -/
theorem montar_compras_fill_data_contraexemplo :
    montar_compras cRNG ["a"] 3 0 0 [0, 1, 2] ["f"] 0 =
      .ok ([⟨"a", 0, 0, "f"⟩, ⟨"a", 1, 0, "f"⟩, ⟨"a", 0, 0, "f"⟩], 8) ∧
    ([0, 1, 2] : List Int).getD (2 % 3) 0 = 2 ∧
    ((0 : Int) = 2 → False) := by
  refine ⟨?_, by decide, by decide⟩
  simp [montar_compras, preSemeia, distribui, dataAt, escolher, cRNG]
  norm_num [round2, roundHalfEven]

/-- C4 (amended): the allocator follows the two-phase algorithm: the first
`|customer_codes|` rows are the coverage phase, row `i` belonging to the
`i`-th input customer code and using the date at DatePool position
`i mod pool_size`; all subsequent rows are the fill phase, in generation
order, each using a randomly chosen customer code and the date at DatePool
position `(current_row_count + fill_index) mod pool_size` — that is,
`(|customer_codes| + 2*j) mod pool_size` for the `j`-th fill row (the code
adds the fill loop counter to the already-grown row count), NOT
`current_row_count mod pool_size` as originally claimed. -/
theorem montar_compras_duas_fases {σ : Type} (R : RNGOps σ)
    (codigos : List String) (total : Int) (vmin vmax : ℚ) (datas : List Int)
    (filiais : List String) (s : σ)
    (hc : codigos ≠ []) (hd : datas ≠ []) (hf : filiais ≠ []) (hv : vmin ≤ vmax) :
    ∃ rows s',
      montar_compras R codigos total vmin vmax datas filiais s = .ok (rows, s') ∧
      rows.length = (max total (codigos.length : Int)).toNat ∧
      (∀ i (hi : i < codigos.length) (hr : i < rows.length),
        (rows.get ⟨i, hr⟩).cod = codigos.get ⟨i, hi⟩ ∧
        (rows.get ⟨i, hr⟩).data = datas.getD (i % datas.length) 0) ∧
      (∀ j (hr : codigos.length + j < rows.length),
        (rows.get ⟨codigos.length + j, hr⟩).cod ∈ codigos ∧
        (rows.get ⟨codigos.length + j, hr⟩).data =
          datas.getD ((codigos.length + 2 * j) % datas.length) 0) := by
  obtain ⟨cov, fill, s', hrun, hmap, hlen, hdatac, hdataf, hmem⟩ :=
    montar_compras_ok R codigos total vmin vmax datas filiais s hc hd hf hv
  have hcovlen : cov.length = codigos.length := by
    have := congrArg List.length hmap
    simpa using this
  refine ⟨cov ++ fill, s', hrun, hlen, ?_, ?_⟩
  · intro i hi hr
    have hic : i < cov.length := by omega
    have hget : (cov ++ fill).get ⟨i, hr⟩ = cov.get ⟨i, hic⟩ := by
      simp only [List.get_eq_getElem, Fin.val_mk]
      exact List.getElem_append_left hic
    constructor
    · rw [hget]
      have h1 : (List.map Compra.cod cov)[i]? = codigos[i]? := by rw [hmap]
      have h2 : (List.map Compra.cod cov)[i]? = some ((cov.get ⟨i, hic⟩).cod) := by
        simp [List.getElem?_eq_getElem
          (by simpa using hic : i < (List.map Compra.cod cov).length)]
      have h3 : codigos[i]? = some (codigos.get ⟨i, hi⟩) := by
        simp [List.getElem?_eq_getElem hi]
      rw [h2, h3] at h1
      exact Option.some.inj h1
    · rw [hget]
      exact hdatac i hic
  · intro j hr
    have hjf : j < fill.length := by
      have := hr
      simp only [List.length_append, hcovlen] at this
      omega
    have hget : (cov ++ fill).get ⟨codigos.length + j, hr⟩ = fill.get ⟨j, hjf⟩ := by
      simp only [List.get_eq_getElem, Fin.val_mk]
      rw [List.getElem_append_right (by omega)]
      congr 1
      omega
    constructor
    · rw [hget]
      exact (hmem _ (List.mem_append_right _ (List.get_mem fill j hjf))).1
    · rw [hget]
      exact hdataf j hjf

theorem montar_compras_duas_fases_witness :
    ∃ rows s',
      montar_compras cRNG ["C00001", "C00002"] 3 0 0 [5, 6] ["f"] 0 = .ok (rows, s') ∧
      rows.length = (max 3 ((["C00001", "C00002"] : List String).length : Int)).toNat ∧
      (∀ i (hi : i < (["C00001", "C00002"] : List String).length) (hr : i < rows.length),
        (rows.get ⟨i, hr⟩).cod = (["C00001", "C00002"] : List String).get ⟨i, hi⟩ ∧
        (rows.get ⟨i, hr⟩).data = ([5, 6] : List Int).getD (i % 2) 0) ∧
      (∀ j (hr : (["C00001", "C00002"] : List String).length + j < rows.length),
        (rows.get ⟨(["C00001", "C00002"] : List String).length + j, hr⟩).cod ∈
          (["C00001", "C00002"] : List String) ∧
        (rows.get ⟨(["C00001", "C00002"] : List String).length + j, hr⟩).data =
          ([5, 6] : List Int).getD (((["C00001", "C00002"] : List String).length + 2 * j) % 2) 0) :=
  montar_compras_duas_fases cRNG ["C00001", "C00002"] 3 0 0 [5, 6] ["f"] 0
    (by decide) (by decide) (by decide) (le_refl 0)

/-- The date loop emits exactly `n` dates, all in `[inicio, inicio + delta]`
for a lawful generator. -/
theorem gerarDatasLoop_facts {σ : Type} (R : RNGOps σ) (inicio delta : Int)
    (hδ : 0 ≤ delta) :
    ∀ (n : Nat) (s : σ),
      (gerarDatasLoop R inicio delta n s).1.length = n ∧
      (RNGLawful R → ∀ d ∈ (gerarDatasLoop R inicio delta n s).1,
        inicio ≤ d ∧ d ≤ inicio + delta) := by
  intro n
  induction n with
  | zero => intro s; exact ⟨rfl, by simp [gerarDatasLoop]⟩
  | succ n ih =>
    intro s
    constructor
    · simp only [gerarDatasLoop]
      simp [fun s => (ih s).1]
    · intro hL d hd
      simp only [gerarDatasLoop, List.mem_cons] at hd
      rcases hd with hd | hd
      · subst hd
        by_cases hpos : delta > 0
        · have := hL.randint_mem 0 delta s (by omega)
          simp only [if_pos hpos]
          omega
        · simp only [if_neg hpos]
          omega
      · exact (ih _).2 hL d hd

/-- `gerar_filiais` never returns an empty pool. -/
theorem gerar_filiais_ne_nil (qtd : Int) : gerar_filiais qtd ≠ [] := by
  have hlen : (gerar_filiais qtd).length = (max 1 qtd).toNat := by
    simp [gerar_filiais]
  have hpos : 0 < (gerar_filiais qtd).length := by
    rw [hlen]
    have : (1 : Int) ≤ max 1 qtd := le_max_left _ _
    omega
  exact List.length_pos.mp hpos

/-- C5 counterexample: the claim states every output amount lies in
`[value_min, value_max]` after rounding to 2 decimals.  Run the allocation
pipeline with a lawful generator and `value_min = value_max = 0.006`:
`uniform(0.006, 0.006)` returns `0.006`, and `round(0.006, 2) = 0.01`, which
exceeds `value_max`. -/
theorem alocar_valor_contraexemplo :
    alocar cRNG (fun _ => 0) 42 ["a"] 1 (3/500) (3/500) 0 0 1 =
      .ok [⟨"a", 0, 1/100, "F001"⟩] ∧
    RNGLawful cRNG ∧
    ¬((1 : ℚ)/100 ≤ 3/500) := by
  refine ⟨?_, cRNG_lawful, by norm_num⟩
  have hF : gerar_filiais 1 = ["F001"] := by decide
  simp [alocar, gerar_datas, gerarDatasLoop, hF, montar_compras,
    preSemeia, distribui, dataAt, escolher, cRNG]
  norm_num [round2, roundHalfEven]

/-- C5 (amended): for every row output by the allocation pipeline (with a
lawful generator), the purchase date lies within `[date_start, date_end]`
and the amount lies within `[round2 value_min, round2 value_max]`; when both
bounds are themselves exact 2-decimal values this is the claimed interval
`[value_min, value_max]`, but for other bounds the rounding can leave the
interval (see the counterexample). -/
theorem alocar_intervalos {σ : Type} (R : RNGOps σ) (seedInit : Int → σ)
    (seed : Int) (codigos : List String) (rows_total : Int) (vmin vmax : ℚ)
    (inicio fim : Int) (fq : Int)
    (hL : RNGLawful R) (hc : codigos ≠ []) (ht : 1 ≤ rows_total)
    (hif : inicio ≤ fim) (hv : vmin ≤ vmax) :
    ∃ rows,
      alocar R seedInit seed codigos rows_total vmin vmax inicio fim fq = .ok rows ∧
      ∀ r ∈ rows,
        (inicio ≤ r.data ∧ r.data ≤ fim) ∧
        (round2 vmin ≤ r.valor ∧ r.valor ≤ round2 vmax) ∧
        (round2 vmin = vmin → round2 vmax = vmax → vmin ≤ r.valor ∧ r.valor ≤ vmax) := by
  have hnotlt : ¬ fim < inicio := not_lt.mpr hif
  have hδ : ¬ fim - inicio < 0 := by omega
  obtain ⟨hdlen, hdmem⟩ :=
    gerarDatasLoop_facts R inicio (fim - inicio) (by omega)
      (max rows_total (codigos.length : Int)).toNat (seedInit seed)
  have hd : (gerarDatasLoop R inicio (fim - inicio)
      (max rows_total (codigos.length : Int)).toNat (seedInit seed)).1 ≠ [] := by
    have h1 : (1 : Int) ≤ max rows_total (codigos.length : Int) :=
      le_trans ht (le_max_left _ _)
    have : 0 < (gerarDatasLoop R inicio (fim - inicio)
        (max rows_total (codigos.length : Int)).toNat (seedInit seed)).1.length := by
      rw [hdlen]; omega
    exact List.length_pos.mp this
  obtain ⟨cov, fill, s', hrun, _, _, _, _, hmem⟩ :=
    montar_compras_ok R codigos rows_total vmin vmax
      (gerarDatasLoop R inicio (fim - inicio)
        (max rows_total (codigos.length : Int)).toNat (seedInit seed)).1
      (gerar_filiais fq)
      (gerarDatasLoop R inicio (fim - inicio)
        (max rows_total (codigos.length : Int)).toNat (seedInit seed)).2
      hc hd (gerar_filiais_ne_nil fq) hv
  refine ⟨cov ++ fill, ?_, ?_⟩
  · have hgd : gerar_datas R (max rows_total (codigos.length : Int)) inicio fim
        (seedInit seed) =
        .ok (gerarDatasLoop R inicio (fim - inicio)
          (max rows_total (codigos.length : Int)).toNat (seedInit seed)) := by
      simp [gerar_datas, hnotlt, hδ]
    simp only [alocar, hgd]
    rw [hrun]
  · intro r hr
    obtain ⟨_, hdta, _, u, hval, hbound⟩ := hmem r hr
    have hdate : inicio ≤ r.data ∧ r.data ≤ inicio + (fim - inicio) := hdmem hL r.data hdta
    obtain ⟨hu1, hu2⟩ := hbound hL
    have hv1 : round2 vmin ≤ r.valor := by rw [hval]; exact round2_mono hu1
    have hv2 : r.valor ≤ round2 vmax := by rw [hval]; exact round2_mono hu2
    refine ⟨⟨hdate.1, by omega⟩, ⟨hv1, hv2⟩, ?_⟩
    intro he1 he2
    exact ⟨by rw [← he1]; exact hv1, by rw [← he2]; exact hv2⟩

theorem alocar_intervalos_witness :
    ∃ rows,
      alocar cRNG (fun _ => 0) 0 ["a"] 1 0 1 0 2 1 = .ok rows ∧
      ∀ r ∈ rows,
        ((0 : Int) ≤ r.data ∧ r.data ≤ 2) ∧
        (round2 0 ≤ r.valor ∧ r.valor ≤ round2 1) ∧
        (round2 0 = 0 → round2 1 = 1 → 0 ≤ r.valor ∧ r.valor ≤ 1) :=
  alocar_intervalos cRNG (fun _ => 0) 0 ["a"] 1 0 1 0 2 1
    cRNG_lawful (by decide) (by norm_num) (by norm_num) (by norm_num)

/-- C3: purchase allocation is deterministic in the seed: two runs of the
allocation pipeline (date-pool construction via `gerar_datas` followed by
`montar_compras`) with the same seed-initialised generator and identical
arguments produce identical output row sequences.  In the embedding the
generator is a deterministic state machine initialised from the seed alone,
mirroring `random.Random(seed)`, so equal seeds and arguments force equal
runs. -/
theorem alocar_determinismo {σ : Type} (R : RNGOps σ) (seedInit : Int → σ)
    (seed1 seed2 : Int) (codigos1 codigos2 : List String) (t1 t2 : Int)
    (vmin1 vmin2 vmax1 vmax2 : ℚ) (i1 i2 f1 f2 q1 q2 : Int)
    (hseed : seed1 = seed2) (hcod : codigos1 = codigos2) (ht : t1 = t2)
    (hvm : vmin1 = vmin2) (hvx : vmax1 = vmax2) (hi : i1 = i2) (hf : f1 = f2)
    (hq : q1 = q2) :
    alocar R seedInit seed1 codigos1 t1 vmin1 vmax1 i1 f1 q1 =
    alocar R seedInit seed2 codigos2 t2 vmin2 vmax2 i2 f2 q2 := by
  subst hseed hcod ht hvm hvx hi hf hq
  rfl

theorem alocar_determinismo_witness :
    alocar cRNG (fun sd => sd.toNat) 42 ["C00001"] 2 0 1 0 3 2 =
    alocar cRNG (fun sd => sd.toNat) 42 ["C00001"] 2 0 1 0 3 2 :=
  alocar_determinismo cRNG (fun sd => sd.toNat) 42 42 ["C00001"] ["C00001"]
    2 2 0 0 1 1 0 0 3 3 2 2 rfl rfl rfl rfl rfl rfl rfl rfl

/-- C10 (implicit): `gerar_filiais` silently clamps its argument to a minimum
of 1: for every integer `qtd` it returns exactly `max 1 qtd` branch codes,
the `k`-th being `F` followed by `k+1` zero-padded to width 3; in particular
a zero or negative branch count yields the single-element pool `["F001"]`. -/
theorem gerar_filiais_clamp :
    (∀ qtd : Int, (gerar_filiais qtd).length = (max 1 qtd).toNat) ∧
    (∀ (qtd : Int) (k : Nat) (h : k < (gerar_filiais qtd).length),
      (gerar_filiais qtd).get ⟨k, h⟩ = "F" ++ pyFormat0 3 (k + 1)) ∧
    gerar_filiais 0 = ["F001"] ∧
    gerar_filiais (-7) = ["F001"] ∧
    gerar_filiais 3 = ["F001", "F002", "F003"] := by
  refine ⟨?_, ?_, by decide, by decide, by decide⟩
  · intro qtd
    simp [gerar_filiais]
  · intro qtd k h
    simp only [gerar_filiais] at h ⊢
    rw [List.get_eq_getElem]
    simp only [Fin.val_mk, List.getElem_map, List.getElem_range']
    have harith : 1 + 1 * k = k + 1 := by omega
    rw [harith]

theorem gerar_filiais_clamp_witness :
    (gerar_filiais 3).get ⟨1, by decide⟩ = "F" ++ pyFormat0 3 2 :=
  gerar_filiais_clamp.2.1 3 1 (by decide)

/-
Identity/contact synthesizer (scripts/gerar_clientes.py and
app.py `_in_memory_clients`).  Python strings are modelled as `List Char`;
`str.lower` and the NFD-based `remove_accents` are modelled character-wise,
faithfully on the Basic-Latin and Latin-1 letters that occur in the
generated pt_BR names (all other characters are left unchanged).
-/

/-- Python `str.lower` restricted to Basic Latin and Latin-1: uppercase
letters (including the accented block `À`-`Þ`, except `×`) map to their
lowercase forms 32 code points higher. -/
def pyLower (c : Char) : Char :=
  if ('A' ≤ c ∧ c ≤ 'Z') ∨ (('À' ≤ c ∧ c ≤ 'Þ') ∧ c ≠ '×') then
    Char.ofNat (c.toNat + 32)
  else c

/-- One character of `remove_accents` (scripts/gerar_clientes.py lines
42-46): NFD-decompose and drop the combining marks (category Mn).  On the
Latin-1 letters this replaces an accented letter by its base letter; other
characters are unchanged. -/
def stripAccent (c : Char) : Char :=
  match c with
  | 'à' | 'á' | 'â' | 'ã' | 'ä' | 'å' => 'a'
  | 'ç' => 'c'
  | 'è' | 'é' | 'ê' | 'ë' => 'e'
  | 'ì' | 'í' | 'î' | 'ï' => 'i'
  | 'ñ' => 'n'
  | 'ò' | 'ó' | 'ô' | 'õ' | 'ö' => 'o'
  | 'ù' | 'ú' | 'û' | 'ü' => 'u'
  | 'ý' | 'ÿ' => 'y'
  | 'À' | 'Á' | 'Â' | 'Ã' | 'Ä' | 'Å' => 'A'
  | 'Ç' => 'C'
  | 'È' | 'É' | 'Ê' | 'Ë' => 'E'
  | 'Ì' | 'Í' | 'Î' | 'Ï' => 'I'
  | 'Ñ' => 'N'
  | 'Ò' | 'Ó' | 'Ô' | 'Õ' | 'Ö' => 'O'
  | 'Ù' | 'Ú' | 'Û' | 'Ü' => 'U'
  | 'Ý' => 'Y'
  | _ => c

/-- `remove_accents`, character-wise. -/
def removeAccents (l : List Char) : List Char := l.map stripAccent

/-- Python whitespace for `str.split()` / `str.strip()`. -/
def pyIsSpace (c : Char) : Bool :=
  c = ' ' ∨ c = '\t' ∨ c = '\n' ∨ c = '\r' ∨ c = '\x0b' ∨ c = '\x0c'

/-- `str.strip()`: drop leading and trailing whitespace. -/
def pyStrip (l : List Char) : List Char :=
  ((l.dropWhile pyIsSpace).reverse.dropWhile pyIsSpace).reverse

/-- `str.strip()` on a `String`. -/
def pyStripStr (s : String) : String := String.mk (pyStrip s.toList)

/-- Fuelled single-scan `str.replace`: replace non-overlapping occurrences of
`pat` left to right.  The fuel bounds the number of examined characters; with
fuel ≥ length of the string it is exact.  (All call sites pass a non-empty
`pat`; an empty `pat` is treated as no-op.) -/
def pyReplaceFuel (pat rep : List Char) : Nat → List Char → List Char
  | 0, s => s
  | _ + 1, [] => []
  | fuel + 1, c :: resto =>
    if (c :: resto).take pat.length = pat ∧ pat ≠ [] then
      rep ++ pyReplaceFuel pat rep fuel ((c :: resto).drop pat.length)
    else c :: pyReplaceFuel pat rep fuel resto

/-- Python `s.replace(pat, rep)`. -/
def pyReplace (pat rep s : List Char) : List Char := pyReplaceFuel pat rep s.length s

/-- `str.split()` with no argument: split on runs of whitespace, discarding
empty tokens. -/
def splitWsAux : List Char → List Char → List (List Char)
  | [], acc => if acc = [] then [] else [acc.reverse]
  | c :: resto, acc =>
    if pyIsSpace c then
      if acc = [] then splitWsAux resto [] else acc.reverse :: splitWsAux resto []
    else splitWsAux resto (c :: acc)

def splitWs (l : List Char) : List (List Char) := splitWsAux l []

/-- `str.strip(c)` for a single character: drop it from both ends. -/
def stripChar (c : Char) (l : List Char) : List Char :=
  ((l.dropWhile (· = c)).reverse.dropWhile (· = c)).reverse

/-- The Portuguese connector words removed from names. -/
def CONECTORES : List (List Char) := ["da", "de", "do", "dos", "das"].map String.toList

/-- The allowed character set of the email local-part. -/
def PERMITIDO : List Char := "abcdefghijklmnopqrstuvwxyz0123456789.-".toList

/-- `gerar_email_local` (scripts/gerar_clientes.py lines 70-83): lower-case,
strip accents, rewrite space-delimited connector words to a space, split on
whitespace dropping connector tokens; `"cliente"` when no token remains, else
join the first and last token with a dot (a single token stands alone), keep
only allowed characters, strip leading/trailing dots, and fall back to
`"cliente"` when the result is empty. -/
def gerar_email_local (nome : List Char) : List Char :=
  let base := removeAccents (nome.map pyLower)
  let base := [" da ", " de ", " do ", " dos ", " das "].foldl
    (fun b p => pyReplace p.toList [' '] b) base
  let partes := (splitWs base).filter (fun p => ¬ p ∈ CONECTORES)
  match partes with
  | [] => "cliente".toList
  | p :: ps =>
    let lcl := if ps = [] then p else p ++ '.' :: ps.getLastD p
    let lcl := lcl.filter (fun ch => ch ∈ PERMITIDO)
    let lcl := stripChar '.' lcl
    if lcl = [] then "cliente".toList else lcl

/-- Modelled from the spec: the claim's derivation of the email local-part,
exactly as stated — case-fold, strip diacritics, remove the connector words,
filter each whitespace-separated token to the allowed character set, then
join the first and last remaining tokens with a dot, use a single remaining
token alone, and return `"cliente"` when no token remains.  No dot-stripping
and no fallback on an empty sanitized result are part of the claimed
derivation. -/
def claimEmailLocal (nome : List Char) : List Char :=
  let base := removeAccents (nome.map pyLower)
  let toks := ((splitWs base).filter (fun p => ¬ p ∈ CONECTORES)).map
    (fun t => t.filter (fun ch => ch ∈ PERMITIDO))
  match toks with
  | [] => "cliente".toList
  | t :: ts => if ts = [] then t else t ++ '.' :: ts.getLastD t

/-- Modelled from the spec (amended): as the claim, but after joining, the
result is stripped of leading and trailing dots and replaced by `"cliente"`
when empty; `"cliente"` is produced exactly when zero tokens remain (a single
token is used alone).  Connector-word removal is the code's combination of
the space-delimited rewrite followed by dropping connector tokens. -/
def emailLocalAmended (nome : List Char) : List Char :=
  let base := removeAccents (nome.map pyLower)
  let base := [" da ", " de ", " do ", " dos ", " das "].foldl
    (fun b p => pyReplace p.toList [' '] b) base
  let toks := ((splitWs base).filter (fun p => ¬ p ∈ CONECTORES)).map
    (fun t => t.filter (fun ch => ch ∈ PERMITIDO))
  match toks with
  | [] => "cliente".toList
  | t :: ts =>
    let lcl := if ts = [] then t else t ++ '.' :: ts.getLastD t
    let lcl := stripChar '.' lcl
    if lcl = [] then "cliente".toList else lcl

theorem getLastD_map {α β : Type} (f : α → β) (l : List α) (d : α) :
    (l.map f).getLastD (f d) = f (l.getLastD d) := by
  induction l generalizing d with
  | nil => rfl
  | cons x xs ih =>
    rw [List.map_cons, List.getLastD_cons, List.getLastD_cons]
    exact ih x

/-- C8 counterexample: on the full name `". a ."` the code joins the first
and last tokens into `"..."`, sanitizes, strips the dots to the empty string
and falls back to `"cliente"`, while the claimed derivation (which has no
dot-stripping and no empty-result fallback) produces `"..."`. -/
theorem gerar_email_local_contraexemplo :
    gerar_email_local (". a .".toList) = "cliente".toList ∧
    claimEmailLocal (". a .".toList) = "...".toList ∧
    ("cliente".toList = "...".toList → False) := by
  exact ⟨by decide, by decide, by decide⟩

/-- C8 (amended): for every full name, `gerar_email_local` equals the claimed
derivation amended with the code's final sanitation — after joining the first
and last connector-free tokens (each filtered to the allowed character set),
leading and trailing dots are stripped and an empty result falls back to
`"cliente"`; `"cliente"` is returned exactly when zero tokens remain, a
single token standing alone. -/
theorem gerar_email_local_igual_amended (nome : List Char) :
    gerar_email_local nome = emailLocalAmended nome := by
  simp only [gerar_email_local, emailLocalAmended]
  cases hp : ((splitWs ([" da ", " de ", " do ", " dos ", " das "].foldl
      (fun b p => pyReplace p.toList [' '] b) (removeAccents (nome.map pyLower)))).filter
      (fun p => ¬ p ∈ CONECTORES)) with
  | nil => rfl
  | cons p ps =>
    simp only [List.map_cons]
    by_cases hps : ps = []
    · subst hps
      rfl
    · have hps' : ps.map (fun t => t.filter (fun ch => ch ∈ PERMITIDO)) ≠ [] := by
        simpa using hps
      rw [if_neg hps, if_neg hps']
      have hdot : ('.' ∈ PERMITIDO) := by decide
      have hfilter :
          (p ++ '.' :: ps.getLastD p).filter (fun ch => decide (ch ∈ PERMITIDO)) =
          p.filter (fun ch => decide (ch ∈ PERMITIDO)) ++
            '.' :: (ps.getLastD p).filter (fun ch => decide (ch ∈ PERMITIDO)) := by
        rw [List.filter_append, List.filter_cons]
        simp [hdot]
      rw [hfilter, getLastD_map (fun t => t.filter (fun ch => ch ∈ PERMITIDO)) ps p]

/-- The plausible Brazilian DDD pool (scripts/gerar_clientes.py lines 29-39). -/
def DDDS : List Nat :=
  [11, 12, 13, 14, 15, 16, 17, 18, 19,
   21, 22, 24, 27, 28,
   31, 32, 33, 34, 35, 37, 38,
   41, 42, 43, 44, 45, 46, 47, 48, 49,
   51, 53, 54, 55,
   61, 62, 63, 64, 65, 66, 67, 68, 69,
   71, 73, 74, 75, 77, 79,
   81, 82, 83, 84, 85, 86, 87, 88, 89,
   91, 92, 93, 94, 95, 96, 97, 98, 99]

/-- Titles stripped from Faker names (scripts/gerar_clientes.py line 57). -/
def TITULOS : List String :=
  ["Sr.", "Sra.", "Sr", "Sra", "Dr.", "Dra.", "Dr", "Dra", "Prof.", "Prof"]

/-- The seeded `Faker` instance: `seed_instance` resets the state to a pure
function of the seed; `name` draws a full name.  The name-distribution
internals of the Faker library are abstract. -/
structure FakerOps (φ : Type) where
  seedInstance : Int → φ
  name : φ → String × φ

/-- The process-global `random` module state, used (unseeded) by
`gerar_celular` and, through `validate_docbr`'s `CPF().generate`, by
`gerar_cpf`.  `cpfGen` abstracts the external CPF generator, which draws from
this same global stream. -/
structure PyRandom (γ : Type) where
  choiceIdx : Nat → γ → Nat × γ
  randint : Int → Int → γ → Int × γ
  cpfGen : γ → String × γ

/-- `gerar_nome` (scripts/gerar_clientes.py lines 54-59): draw a Faker name,
strip the titles (`nome.replace(t + " ", "").replace(t, "")` for each
title), then `strip()`. -/
def gerar_nome {φ : Type} (F : FakerOps φ) (f : φ) : String × φ :=
  let nome := (F.name f).1
  let nomeLimpo := TITULOS.foldl
    (fun nm t => pyReplace t.toList [] (pyReplace (t ++ " ").toList [] nm)) nome.toList
  (String.mk (pyStrip nomeLimpo), (F.name f).2)

/-- `gerar_celular` (scripts/gerar_clientes.py lines 62-67): DDD from the
global `random.choice(DDDS)`, two 4-digit groups from `random.randint`,
rendered `(DD) 9XXXX-XXXX`. -/
def gerar_celular {γ : Type} (G : PyRandom γ) (g : γ) : String × γ :=
  let i := (G.choiceIdx DDDS.length g).1
  let g1 := (G.choiceIdx DDDS.length g).2
  let ddd := DDDS.getD (i % DDDS.length) 0
  let primeira := (G.randint 0 9999 g1).1
  let g2 := (G.randint 0 9999 g1).2
  let segunda := (G.randint 0 9999 g2).1
  let g3 := (G.randint 0 9999 g2).2
  ("(" ++ pyFormat0 2 ddd ++ ") 9" ++ pyFormat0 4 primeira.toNat ++ "-" ++
    pyFormat0 4 segunda.toNat, g3)

/-- `gerar_cpf` (scripts/gerar_clientes.py lines 49-51): delegate to the
external `CPF().generate(mask=True)`, which consumes the global stream. -/
def gerar_cpf {γ : Type} (G : PyRandom γ) (g : γ) : String × γ := G.cpfGen g

/-- `gerar_codigo` (scripts/gerar_clientes.py lines 86-88): `C%05d`. -/
def gerar_codigo (i : Nat) : String := "C" ++ pyFormat0 5 i

/-- The CPF uniqueness retry loop of `_in_memory_clients` (app.py lines
89-92): draw, then redraw while the CPF is already used.  The Python loop is
unbounded; the fuel bounds the unrolling (`none` = fuel exhausted, which a
run without that many collisions never reaches). -/
def cpfRetry {γ : Type} (G : PyRandom γ) (usados : List String) :
    Nat → γ → Option (String × γ)
  | 0, _ => none
  | fuel + 1, g =>
    let cpf := (gerar_cpf G g).1
    let g1 := (gerar_cpf G g).2
    if cpf ∈ usados then cpfRetry G usados fuel g1 else some (cpf, g1)

/-- The email uniqueness loop of `_in_memory_clients` (app.py lines 94-100):
try `local@domain`, then `local2@domain`, `local3@domain`, ... until unused.
Fuel `|usados| + 1` suffices: the candidates are pairwise distinct, so one of
the first `|usados| + 1` is not in `usados`. -/
def emailRetry (lcl dominio : String) (usados : List String) : Nat → Nat → String
  | _, 0 => lcl ++ "@" ++ dominio
  | n, fuel + 1 =>
    let e := lcl ++ toString n ++ "@" ++ dominio
    if e ∈ usados then emailRetry lcl dominio usados (n + 1) fuel else e

def escolherEmail (lcl dominio : String) (usados : List String) : String :=
  let e := lcl ++ "@" ++ dominio
  if e ∈ usados then emailRetry lcl dominio usados 2 (usados.length + 1) else e

/-- A generated customer record. -/
structure Cliente where
  codigo : String
  nome : String
  celular : String
  cpf : String
  email : String
deriving DecidableEq

/-- The per-record loop of `_in_memory_clients` (app.py lines 86-104):
name from the seeded Faker stream, CPF (with uniqueness retry) and phone from
the global stream, email from the name, sequential code. -/
def clientesLoop {φ γ : Type} (F : FakerOps φ) (G : PyRandom γ)
    (dominio : String) (cpfFuel : Nat) :
    Nat → Nat → List String → List String → φ → γ → Option (List Cliente × φ × γ)
  | _, 0, _, _, f, g => some ([], f, g)
  | i, count + 1, usadosCpf, usadosEmail, f, g =>
    let nome := (gerar_nome F f).1
    let f1 := (gerar_nome F f).2
    match cpfRetry G usadosCpf cpfFuel g with
    | none => none
    | some pr =>
      let cpf := pr.1
      let g1 := pr.2
      let lcl := String.mk (gerar_email_local nome.toList)
      let email := escolherEmail lcl dominio usadosEmail
      let celular := (gerar_celular G g1).1
      let g2 := (gerar_celular G g1).2
      let codigo := gerar_codigo i
      match clientesLoop F G dominio cpfFuel (i + 1) count
          (cpf :: usadosCpf) (email :: usadosEmail) f1 g2 with
      | none => none
      | some rest => some (⟨codigo, nome, celular, cpf, email⟩ :: rest.1, rest.2.1, rest.2.2)

/-- `_in_memory_clients` (app.py lines 64-123): validate the count, seed the
Faker instance when a seed is given (otherwise keep the ambient instance
state `f0`), then generate `count` records.  The global `random` stream `g`
is never touched by the seed. -/
def in_memory_clients {φ γ : Type} (F : FakerOps φ) (G : PyRandom γ)
    (count maxClients : Int) (dominio : String) (seed : Option Int)
    (f0 : φ) (g : γ) (cpfFuel : Nat) : Except String (List Cliente) :=
  if count < 1 then .error "count must be >= 1"
  else if maxClients < count then .error "count exceeds limit"
  else
    let f := match seed with
      | some sd => F.seedInstance sd
      | none => f0
    match clientesLoop F G dominio cpfFuel 1 count.toNat [] [] f g with
    | none => .error "cpf retry fuel exhausted"
    | some rest => .ok rest.1

/-- The name column of `clientesLoop` depends only on the Faker stream: two
runs from the same Faker state produce the same names, whatever the global
stream, the used-sets, or the fuels. -/
theorem clientesLoop_nomes {φ γ : Type} (F : FakerOps φ) (G : PyRandom γ)
    (dominio : String) :
    ∀ (count i fuel1 fuel2 : Nat) (uc1 ue1 uc2 ue2 : List String) (f : φ)
      (g1 g2 : γ) (r1 r2 : List Cliente × φ × γ),
      clientesLoop F G dominio fuel1 i count uc1 ue1 f g1 = some r1 →
      clientesLoop F G dominio fuel2 i count uc2 ue2 f g2 = some r2 →
      r1.1.map Cliente.nome = r2.1.map Cliente.nome := by
  intro count
  induction count with
  | zero =>
    intro i fuel1 fuel2 uc1 ue1 uc2 ue2 f g1 g2 r1 r2 h1 h2
    simp only [clientesLoop] at h1 h2
    rw [← Option.some.inj h1, ← Option.some.inj h2]
  | succ count ih =>
    intro i fuel1 fuel2 uc1 ue1 uc2 ue2 f g1 g2 r1 r2 h1 h2
    simp only [clientesLoop] at h1 h2
    cases hc1 : cpfRetry G uc1 fuel1 g1 with
    | none => rw [hc1] at h1; exact absurd h1 (by simp)
    | some pr1 =>
      cases hc2 : cpfRetry G uc2 fuel2 g2 with
      | none => rw [hc2] at h2; exact absurd h2 (by simp)
      | some pr2 =>
        rw [hc1] at h1
        rw [hc2] at h2
        simp only [] at h1 h2
        cases hr1 : clientesLoop F G dominio fuel1 (i + 1) count
            (pr1.1 :: uc1)
            (escolherEmail (String.mk (gerar_email_local
              ((gerar_nome F f).1).toList)) dominio ue1 :: ue1)
            (gerar_nome F f).2 (gerar_celular G pr1.2).2 with
        | none => rw [hr1] at h1; exact absurd h1 (by simp)
        | some rest1 =>
          cases hr2 : clientesLoop F G dominio fuel2 (i + 1) count
              (pr2.1 :: uc2)
              (escolherEmail (String.mk (gerar_email_local
                ((gerar_nome F f).1).toList)) dominio ue2 :: ue2)
              (gerar_nome F f).2 (gerar_celular G pr2.2).2 with
          | none => rw [hr2] at h2; exact absurd h2 (by simp)
          | some rest2 =>
            rw [hr1] at h1
            rw [hr2] at h2
            simp only [] at h1 h2
            have hrec := ih (i + 1) fuel1 fuel2 (pr1.1 :: uc1) _ (pr2.1 :: uc2) _
              (gerar_nome F f).2 (gerar_celular G pr1.2).2 (gerar_celular G pr2.2).2
              rest1 rest2 hr1 hr2
            rw [← Option.some.inj h1, ← Option.some.inj h2]
            simpa using hrec

/-- C6 (amended): with a seed, two runs of the client generator with the same
seed and count produce identical NAME values for every record, whatever the
state of the process-global `random` stream; phone and national-id are drawn
from that unseeded global stream (`random.choice`/`random.randint` and
`CPF().generate`) and are therefore NOT determined by the seed (see the
counterexample). -/
theorem in_memory_clients_nomes_deterministicos {φ γ : Type} (F : FakerOps φ)
    (G : PyRandom γ) (count maxClients : Int) (dominio : String) (seed : Int)
    (f01 f02 : φ) (g1 g2 : γ) (fuel1 fuel2 : Nat) (rows1 rows2 : List Cliente)
    (h1 : in_memory_clients F G count maxClients dominio (some seed) f01 g1 fuel1 =
      .ok rows1)
    (h2 : in_memory_clients F G count maxClients dominio (some seed) f02 g2 fuel2 =
      .ok rows2) :
    rows1.map Cliente.nome = rows2.map Cliente.nome := by
  simp only [in_memory_clients] at h1 h2
  by_cases hcnt : count < 1
  · rw [if_pos hcnt] at h1
    exact absurd h1 (by simp)
  · rw [if_neg hcnt] at h1 h2
    by_cases hmax : maxClients < count
    · rw [if_pos hmax] at h1
      exact absurd h1 (by simp)
    · rw [if_neg hmax] at h1 h2
      cases hl1 : clientesLoop F G dominio fuel1 1 count.toNat [] []
          (F.seedInstance seed) g1 with
      | none => rw [hl1] at h1; exact absurd h1 (by simp)
      | some rest1 =>
        cases hl2 : clientesLoop F G dominio fuel2 1 count.toNat [] []
            (F.seedInstance seed) g2 with
        | none => rw [hl2] at h2; exact absurd h2 (by simp)
        | some rest2 =>
          rw [hl1] at h1
          rw [hl2] at h2
          simp only [Except.ok.injEq] at h1 h2
          rw [← h1, ← h2]
          exact clientesLoop_nomes F G dominio count.toNat 1 fuel1 fuel2 [] [] [] []
            (F.seedInstance seed) g1 g2 rest1 rest2 hl1 hl2

/-- Concrete Faker-stream instance used to evaluate the model: `name` always
returns `"Ana Silva"`. -/
def F0 : FakerOps Unit where
  seedInstance := fun _ => ()
  name := fun _ => ("Ana Silva", ())

/-- Concrete global-random instance used to evaluate the model: the state is
a counter; `choiceIdx` returns the counter, `randint` the lower bound, and
`cpfGen` a counter-tagged string. -/
def G0 : PyRandom Nat where
  choiceIdx := fun _ g => (g, g + 1)
  randint := fun a _ g => (a, g + 1)
  cpfGen := fun g => ("cpf" ++ toString g, g + 1)

/-- C6 counterexample: two runs of the client generator with the SAME seed
(42) and count (1) but different states of the unseeded process-global
`random` stream (counter 0 vs 1) agree on the name but return different
phone and national-id values — so the seed does not make phone/national-id
generation deterministic, contradicting the claim. -/
theorem in_memory_clients_celular_contraexemplo :
    in_memory_clients F0 G0 1 50000 "example.com" (some 42) () 0 1 =
      .ok [⟨"C00001", "Ana Silva", "(12) 90000-0000", "cpf0", "ana.silva@example.com"⟩] ∧
    in_memory_clients F0 G0 1 50000 "example.com" (some 42) () 1 1 =
      .ok [⟨"C00001", "Ana Silva", "(13) 90000-0000", "cpf1", "ana.silva@example.com"⟩] ∧
    (("(12) 90000-0000" : String) = "(13) 90000-0000" → False) ∧
    (("cpf0" : String) = "cpf1" → False) := by
  exact ⟨by rfl, by rfl, by decide, by decide⟩

theorem in_memory_clients_nomes_deterministicos_witness :
    ([⟨"C00001", "Ana Silva", "(12) 90000-0000", "cpf0", "ana.silva@example.com"⟩] :
        List Cliente).map Cliente.nome =
    ([⟨"C00001", "Ana Silva", "(13) 90000-0000", "cpf1", "ana.silva@example.com"⟩] :
        List Cliente).map Cliente.nome :=
  in_memory_clients_nomes_deterministicos F0 G0 1 50000 "example.com" 42 () () 0 1 1 1
    [⟨"C00001", "Ana Silva", "(12) 90000-0000", "cpf0", "ana.silva@example.com"⟩]
    [⟨"C00001", "Ana Silva", "(13) 90000-0000", "cpf1", "ana.silva@example.com"⟩]
    (by rfl) (by rfl)

/-- Gregorian leap year. -/
def isLeap (y : Nat) : Bool := (y % 4 = 0 && y % 100 != 0) || y % 400 = 0

/-- Days in a month. -/
def diasNoMes (y m : Nat) : Nat :=
  if m = 2 then (if isLeap y then 29 else 28)
  else if m = 4 ∨ m = 6 ∨ m = 9 ∨ m = 11 then 30
  else 31

/-- A parsed calendar date. -/
structure YMD where
  y : Nat
  m : Nat
  d : Nat
deriving DecidableEq

/-- Split on `'-'`, keeping empty fields (as Python's `s.split('-')`). -/
def splitDash : List Char → List (List Char)
  | [] => [[]]
  | c :: rest =>
    if c = '-' then [] :: splitDash rest
    else
      match splitDash rest with
      | [] => [[c]]
      | t :: ts => (c :: t) :: ts

/-- Decimal value of a digit string. -/
def digitsToNat (l : List Char) : Nat :=
  l.foldl (fun acc c => acc * 10 + (c.toNat - '0'.toNat)) 0

/-- `datetime.strptime(s, '%Y-%m-%d')`: exactly three dash-separated numeric
fields — a 4-digit year (`datetime` requires year ≥ 1), a 1-2 digit month in
1..12 and a 1-2 digit day valid for that month/year; anything else raises
`ValueError` (modelled as `none`). -/
def parseDate (s : String) : Option YMD :=
  match splitDash s.toList with
  | [ys, ms, ds] =>
    if ys.length = 4 ∧ ys.all Char.isDigit ∧
        1 ≤ ms.length ∧ ms.length ≤ 2 ∧ ms.all Char.isDigit ∧
        1 ≤ ds.length ∧ ds.length ≤ 2 ∧ ds.all Char.isDigit then
      let y := digitsToNat ys
      let m := digitsToNat ms
      let d := digitsToNat ds
      if 1 ≤ y ∧ 1 ≤ m ∧ m ≤ 12 ∧ 1 ≤ d ∧ d ≤ diasNoMes y m then
        some ⟨y, m, d⟩
      else none
    else none
  | _ => none

/-- Rata-die day number of a civil date (the timeline position of the parsed
`datetime`): `datetime` comparison and `.days` subtraction coincide with
integer comparison and subtraction of these numbers. -/
def toDays (x : YMD) : Int :=
  let y : Int := if x.m ≤ 2 then (x.y : Int) - 1 else (x.y : Int)
  let era : Int := (if 0 ≤ y then y else y - 399) / 400
  let yoe : Int := y - era * 400
  let mp : Int := ((x.m : Int) + 9) % 12
  let doy : Int := (153 * mp + 2) / 5 + (x.d : Int) - 1
  let doe : Int := yoe * 365 + yoe / 4 - yoe / 100 + doy
  era * 146097 + doe - 719468

/-- The tail of `_parse_client_codes_from_upload` (app.py lines 141-148):
strip each cell of the detected customer-code column and keep the non-empty
ones; fail when none remain.  (CSV decoding and column detection are
upstream collaborators; the claim's precondition concerns the resulting code
list.) -/
def parse_client_codes (fields : List String) : Except String (List String) :=
  let codes := (fields.map pyStripStr).filter (fun c => c ≠ "")
  if codes = [] then .error "No client codes found in CSV"
  else .ok codes

/-- `_in_memory_purchases` (app.py lines 151-195): the validation sequence —
row count ≥ 1, row count ≤ `MAX_PURCHASES` (`MAXP`), `valor_max ≥ valor_min`,
both dates strictly parsed, `fim ≥ inicio`, non-empty customer-code list —
followed by the allocation pipeline. -/
def in_memory_purchases {σ : Type} (R : RNGOps σ) (MAXP : Int)
    (fields : List String) (rows_total : Int) (vmin vmax : ℚ)
    (inicio_str fim_str : String) (filiais_qtd : Int) (s : σ) :
    Except String (List Compra) :=
  if rows_total < 1 then .error "rows must be >= 1"
  else if MAXP < rows_total then .error "rows exceeds limit"
  else if vmax < vmin then .error "valor_max must be >= valor_min"
  else
    match parseDate inicio_str, parseDate fim_str with
    | some di, some df =>
      if toDays df < toDays di then .error "fim earlier than inicio"
      else
        match parse_client_codes fields with
        | .error e => .error e
        | .ok codigos =>
          match gerar_datas R (max rows_total (codigos.length : Int))
              (toDays di) (toDays df) s with
          | .error e => .error e
          | .ok ds =>
            match montar_compras R codigos rows_total vmin vmax ds.1
                (gerar_filiais filiais_qtd) ds.2 with
            | .error e => .error e
            | .ok rs => .ok rs.1
    | _, _ => .error "Invalid date format. Use YYYY-MM-DD"

/-- C7: purchase generation fails with an `InvalidArgument` condition — and,
the result being an `Except`, produces no output rows — EXACTLY when a
precondition is violated: `rows_total < 1`, `rows_total` above the enforced
ceiling, `valor_max < valor_min`, a start/end date malformed under strict
`YYYY-MM-DD` parsing, `date_end < date_start`, or an empty customer-code
list; when no precondition is violated the generation succeeds. -/
theorem in_memory_purchases_valida_iff {σ : Type} (R : RNGOps σ) (MAXP : Int)
    (fields : List String) (rows_total : Int) (vmin vmax : ℚ)
    (inicio_str fim_str : String) (filiais_qtd : Int) (s : σ) :
    (∃ e, in_memory_purchases R MAXP fields rows_total vmin vmax inicio_str
      fim_str filiais_qtd s = .error e) ↔
    (rows_total < 1 ∨ MAXP < rows_total ∨ vmax < vmin ∨
      parseDate inicio_str = none ∨ parseDate fim_str = none ∨
      (∃ di df, parseDate inicio_str = some di ∧ parseDate fim_str = some df ∧
        toDays df < toDays di) ∨
      (fields.map pyStripStr).filter (fun c => c ≠ "") = []) := by
  by_cases h1 : rows_total < 1
  · simp [in_memory_purchases, h1]
  · by_cases h2 : MAXP < rows_total
    · simp [in_memory_purchases, h1, h2]
    · by_cases h3 : vmax < vmin
      · simp [in_memory_purchases, h1, h2, h3]
      · cases hpi : parseDate inicio_str with
        | none => simp [in_memory_purchases, h1, h2, h3, hpi]
        | some di =>
          cases hpf : parseDate fim_str with
          | none => simp [in_memory_purchases, h1, h2, h3, hpi, hpf]
          | some df =>
            by_cases h4 : toDays df < toDays di
            · simp [in_memory_purchases, h1, h2, h3, hpi, hpf, h4]
            · by_cases h5 : (fields.map pyStripStr).filter (fun c => c ≠ "") = []
              · have hpc : parse_client_codes fields =
                    .error "No client codes found in CSV" := by
                  simp only [parse_client_codes]
                  rw [if_pos h5]
                constructor
                · intro _
                  exact Or.inr (Or.inr (Or.inr (Or.inr (Or.inr (Or.inr h5)))))
                · intro _
                  refine ⟨"No client codes found in CSV", ?_⟩
                  simp only [in_memory_purchases, if_neg h1, if_neg h2,
                    if_neg h3, hpi, hpf, if_neg h4, hpc]
              · have hrows1 : (1 : Int) ≤ rows_total := by omega
                obtain ⟨hdlen, _⟩ :=
                  gerarDatasLoop_facts R (toDays di) (toDays df - toDays di)
                    (by omega)
                    (max rows_total
                      ((((fields.map pyStripStr).filter (fun c => c ≠ "")).length : Int))).toNat s
                have hdne : (gerarDatasLoop R (toDays di) (toDays df - toDays di)
                    (max rows_total
                      ((((fields.map pyStripStr).filter (fun c => c ≠ "")).length : Int))).toNat s).1 ≠ [] := by
                  have hm : (1 : Int) ≤ max rows_total
                      ((((fields.map pyStripStr).filter (fun c => c ≠ "")).length : Int)) :=
                    le_trans hrows1 (le_max_left _ _)
                  have : 0 < (gerarDatasLoop R (toDays di) (toDays df - toDays di)
                      (max rows_total
                        ((((fields.map pyStripStr).filter (fun c => c ≠ "")).length : Int))).toNat s).1.length := by
                    rw [hdlen]; omega
                  exact List.length_pos.mp this
                obtain ⟨cov, fill, s', hrun, _, _, _, _, _⟩ :=
                  montar_compras_ok R ((fields.map pyStripStr).filter (fun c => c ≠ ""))
                    rows_total vmin vmax
                    (gerarDatasLoop R (toDays di) (toDays df - toDays di)
                      (max rows_total
                        ((((fields.map pyStripStr).filter (fun c => c ≠ "")).length : Int))).toNat s).1
                    (gerar_filiais filiais_qtd)
                    (gerarDatasLoop R (toDays di) (toDays df - toDays di)
                      (max rows_total
                        ((((fields.map pyStripStr).filter (fun c => c ≠ "")).length : Int))).toNat s).2
                    h5 hdne (gerar_filiais_ne_nil filiais_qtd) (not_lt.mp h3)
                have hgd : gerar_datas R
                    (max rows_total
                      ((((fields.map pyStripStr).filter (fun c => c ≠ "")).length : Int)))
                    (toDays di) (toDays df) s =
                    .ok (gerarDatasLoop R (toDays di) (toDays df - toDays di)
                      (max rows_total
                        ((((fields.map pyStripStr).filter (fun c => c ≠ "")).length : Int))).toNat s) := by
                  have hno : ¬ toDays df < toDays di := h4
                  have hno2 : ¬ toDays df - toDays di < 0 := by omega
                  simp [gerar_datas, hno, hno2]
                simp only [in_memory_purchases, if_neg h1, if_neg h2, if_neg h3,
                  hpi, hpf, if_neg h4, parse_client_codes, if_neg h5, hgd, hrun]
                constructor
                · rintro ⟨e, he⟩
                  exact absurd he (by simp)
                · rintro (h | h | h | h | h | ⟨di', df', hdi, hdf, hlt⟩ | h)
                  · exact absurd h h1
                  · exact absurd h h2
                  · exact absurd h h3
                  · simp at h
                  · simp at h
                  · have hdi2 := Option.some.inj hdi
                    have hdf2 := Option.some.inj hdf
                    rw [← hdi2, ← hdf2] at hlt
                    exact absurd hlt h4
                  · exact absurd h h5
